import Mathlib

/-
Verification of the receipt OCR service (src/app.py): a shallow embedding of
the field extractor `parse_receipt_text`, the preprocessing pipeline
`preprocess_image`, and the `POST /extract-receipt` handler `extract_receipt`,
together with theorems settling the specification's claims.

Python strings are modelled as `List Char` (code points); the four regular
expressions of the extractor are embedded as explicit leftmost-search matching
functions whose backtracking has been resolved by hand (each definition's doc
comment records the regex it embeds and the determinization argument).
-/

namespace OcrApi

/-- ASCII decimal digits: the characters the regex class \d matches in the
receipt texts of interest (Unicode digits outside ASCII are not modelled). -/
def pyDigit (c : Char) : Bool := c.isDigit

/-- Python's whitespace set, used both by the regex class \s and by str.strip. -/
def pySpace (c : Char) : Bool :=
  c == ' ' || c == '\t' || c == '\n' || c == '\r' || c == '\x0b' || c == '\x0c' ||
  c == '\x1c' || c == '\x1d' || c == '\x1e' || c == '\x1f' || c == '\x85' ||
  c == '\xa0' || c == '\u1680' || ('\u2000' ≤ c && c ≤ '\u200a') ||
  c == '\u2028' || c == '\u2029' || c == '\u202f' || c == '\u205f' || c == '\u3000'

/-- Word characters for the regex boundary \b (ASCII letters, digits and
underscore; Unicode word characters outside ASCII are not modelled). -/
def pyWord (c : Char) : Bool := c.isAlphanum || c == '_'

/-- Whether an optional preceding character is a word character; `none` stands
for the start of the text, which is not a word character. -/
def isWordOpt : Option Char → Bool
  | none => false
  | some c => pyWord c

/-- The line-break characters of Python's str.splitlines (besides the combined
"\r\n" sequence, which splitlinesGo handles as one break). -/
def pyLineBreak (c : Char) : Bool :=
  c == '\n' || c == '\r' || c == '\x0b' || c == '\x0c' || c == '\x1c' ||
  c == '\x1d' || c == '\x1e' || c == '\x85' || c == '\u2028' || c == '\u2029'

/-- Worker for splitlines: `acc` holds the reversed characters of the current
line; a break ends the line, and a break that ends the text adds no final
empty line (Python: "a\n".splitlines() == ["a"]). -/
def splitlinesGo (acc : List Char) : List Char → List (List Char)
  | [] => [acc.reverse]
  | '\r' :: '\n' :: [] => [acc.reverse]
  | '\r' :: '\n' :: c :: rest => acc.reverse :: splitlinesGo [] (c :: rest)
  | c :: rest =>
    if pyLineBreak c then
      match rest with
      | [] => [acc.reverse]
      | d :: rest2 => acc.reverse :: splitlinesGo [] (d :: rest2)
    else splitlinesGo (c :: acc) rest

/-- Python's str.splitlines: the empty string has no lines. -/
def splitlines : List Char → List (List Char)
  | [] => []
  | c :: rest => splitlinesGo [] (c :: rest)

/-- Python's str.strip(): drop leading and trailing whitespace. -/
def pyStrip (l : List Char) : List Char :=
  ((l.dropWhile pySpace).reverse.dropWhile pySpace).reverse

/-- The numeric tail of the currency amount regex, \d+ followed by the optional
greedy group (?:\.\d\x7b1,2\x7d)? : one or more digits, then optionally a dot
and one or two digits. The optional group is taken whenever a dot and at least
one digit follow the integer digits, and its \d\x7b1,2\x7d takes two digits
when two are available, else one. -/
def matchNumber (l : List Char) : Option (List Char) :=
  let ds := l.takeWhile pyDigit
  if ds.isEmpty then none
  else
    match l.drop ds.length with
    | '.' :: r2 =>
      let fs := (r2.takeWhile pyDigit).take 2
      if fs.isEmpty then some ds else some (ds ++ '.' :: fs)
    | _ => some ds

/-- The three currency symbols of the amount regex alternation (\$|₹|€). -/
def currencySymbol (c : Char) : Bool := c == '$' || c == '₹' || c == '€'

/-- One position's match of the amount regex (\$|₹|€)\s?(\d+(?:\.\d\x7b1,2\x7d)?) :
a currency symbol, then the greedy optional \s? (one whitespace character,
given up again when no number follows it), then the number. Returns the full
matched substring, symbol included, as match.group() does. -/
def matchCurrencyAt : List Char → Option (List Char)
  | [] => none
  | c :: l =>
    if currencySymbol c then
      match l with
      | [] => none
      | s :: l2 =>
        if pySpace s then
          match matchNumber l2 with
          | some n => some (c :: s :: n)
          | none => (matchNumber l).map (c :: .)
        else (matchNumber l).map (c :: .)
    else none

/-- One position's match of the fallback amount regex \b\d\x7b1,5\x7d\.\d\x7b2\x7d\b,
given the character just before the position (none at the start of the text).
The first \b holds iff the preceding character is not a word character (the
following one is a digit). \d\x7b1,5\x7d is greedy but must leave a dot next:
taking fewer than all the digits leaves a digit next, so the position matches
iff the full digit run has length 1..5 and a dot follows it. \d\x7b2\x7d takes
exactly two digits, and the final \b then requires the character after them
not to be a word character (a third digit in particular refutes it). -/
def matchFallbackAt (prev : Option Char) (l : List Char) : Option (List Char) :=
  if isWordOpt prev then none
  else
    let ds := l.takeWhile pyDigit
    if ds.length < 1 || 5 < ds.length then none
    else
      match l.drop ds.length with
      | '.' :: r2 =>
        let fs := r2.takeWhile pyDigit
        if fs.length < 2 then none
        else if isWordOpt (r2.drop 2).head? then none
        else some (ds ++ '.' :: fs.take 2)
      | _ => none

/-- The separator class [ / - ] of both date regexes. -/
def dateSep (c : Char) : Bool := c == '/' || c == '-'

/-- One position's match of the first date regex \d\x7b2\x7d[ / - ]\d\x7b2\x7d[ / - ]\d\x7b4\x7d :
a fixed-length pattern, so no backtracking is involved. -/
def matchDate1At : List Char → Option (List Char)
  | a :: b :: s1 :: c :: d :: s2 :: e :: f :: g :: h :: _ =>
    if pyDigit a && pyDigit b && dateSep s1 && pyDigit c && pyDigit d && dateSep s2 &&
       pyDigit e && pyDigit f && pyDigit g && pyDigit h then
      some [a, b, s1, c, d, s2, e, f, g, h]
    else none
  | _ => none

/-- One position's match of the second date regex \d\x7b4\x7d[ / - ]\d\x7b2\x7d[ / - ]\d\x7b2\x7d. -/
def matchDate2At : List Char → Option (List Char)
  | a :: b :: c :: d :: s1 :: e :: f :: s2 :: g :: h :: _ =>
    if pyDigit a && pyDigit b && pyDigit c && pyDigit d && dateSep s1 &&
       pyDigit e && pyDigit f && dateSep s2 && pyDigit g && pyDigit h then
      some [a, b, c, d, s1, e, f, s2, g, h]
    else none
  | _ => none

/-- Python's re.search for a pattern that needs no left context: try the
pattern at every position from left to right (the end position included) and
return the first position's match. -/
def searchSuffixes (m : List Char → Option (List Char)) : List Char → Option (List Char)
  | [] => m []
  | c :: rest =>
    match m (c :: rest) with
    | some r => some r
    | none => searchSuffixes m rest

/-- Python's re.search for a pattern whose matcher also inspects the character
just before the current position (the word boundary \b). -/
def searchWithPrev (m : Option Char → List Char → Option (List Char)) :
    Option Char → List Char → Option (List Char)
  | prev, [] => m prev []
  | prev, c :: rest =>
    match m prev (c :: rest) with
    | some r => some r
    | none => searchWithPrev m (some c) rest

/-- The keyword alternation of the merchant regex
(RESTAURANT|STORE|HOTEL|CAFE|MART|SHOP|COMPANY). -/
def merchantKeywords : List (List Char) :=
  ["RESTAURANT", "STORE", "HOTEL", "CAFE", "MART", "SHOP", "COMPANY"].map String.data

/-- Whether pat occurs as a contiguous substring of l. -/
def occursIn (pat l : List Char) : Bool :=
  l.tails.any (fun s => pat.isPrefixOf s)

/-- Whether re.search of the keyword alternation succeeds on line.upper():
some keyword occurs as a contiguous substring of the upper-cased line (only
the truthiness of the match object is used by the source). Char.toUpper
upper-cases ASCII letters, as the keywords require. -/
def containsKeyword (line : List Char) : Bool :=
  let u := line.map Char.toUpper
  merchantKeywords.any (fun kw => occursIn kw u)

/-- The source's merchant loop: possible_merchant starts as lines[0]; the first
line containing a keyword overrides it and the loop breaks. -/
def merchantLoop (dflt : List Char) : List (List Char) → List Char
  | [] => dflt
  | l :: rest => if containsKeyword l then l else merchantLoop dflt rest

/-- The source's line list: [line.strip() for line in text.splitlines() if line.strip()]. -/
def linesOf (t : List Char) : List (List Char) :=
  ((splitlines t).map pyStrip).filter (fun l => !l.isEmpty)

/-- The structured record returned by parse_receipt_text: a missing key is `none`. -/
structure ReceiptRecord where
  amount : Option String
  date : Option String
  merchant : Option String
  deriving DecidableEq

/-- The source's parse_receipt_text: the amount, date and merchant fields
extracted from the OCR text by the fixed regex cascade of src/app.py. -/
def parse_receipt_text (text : String) : ReceiptRecord :=
  let t := text.data
  let amount :=
    match searchSuffixes matchCurrencyAt t with
    | some m => some m
    | none => searchWithPrev matchFallbackAt none t
  let date :=
    match searchSuffixes matchDate1At t with
    | some m => some m
    | none => searchSuffixes matchDate2At t
  let lines := linesOf t
  let merchant :=
    match lines with
    | [] => none
    | l0 :: _ => some (merchantLoop l0 lines)
  { amount := amount.map List.asString
    date := date.map List.asString
    merchant := merchant.map List.asString }

/-!
The preprocessing pipeline of src/app.py, preprocess_image. The OpenCV image
operations it calls are external library calls whose source is not part of the
repository; each is modelled from the spec (section 4.1), with doc comments
recording what is abstracted.
-/

/-- A grayscale image: a row-major list of rows of pixel values. -/
abbrev GrayImage := List (List Nat)

/-- A 3-channel colour image: rows of (r, g, b) triples, the in-memory bitmap
after PIL's convert("RGB") and np.array. -/
abbrev ColorImage := List (List (Nat × Nat × Nat))

/-- Indexed map: imapFrom f i [a, b, c] = [f i a, f (i+1) b, f (i+2) c]. -/
def imapFrom (f : Nat → α → β) : Nat → List α → List β
  | _, [] => []
  | i, a :: as => f i a :: imapFrom f (i + 1) as

/-- Map a function over a list together with each element's index. -/
def imap (f : Nat → α → β) (l : List α) : List β := imapFrom f 0 l

/-- The pixel at row i, column j, with out-of-range indices clamped to the
image (the replicated border of the OpenCV filters below; the Nat subtraction
in the callers already clamps coordinates below zero to 0). -/
def pxAt (img : GrayImage) (i j : Nat) : Nat :=
  let row := img.getD (min i (img.length - 1)) []
  row.getD (min j (row.length - 1)) 0

/-- Insert a value into a sorted list, keeping it sorted. -/
def insertSorted (x : Nat) : List Nat → List Nat
  | [] => [x]
  | y :: ys => if x ≤ y then x :: y :: ys else y :: insertSorted x ys

/-- Insertion sort, for the median filter. -/
def sortNat (l : List Nat) : List Nat := l.foldr insertSorted []

/-- cv2.cvtColor(img, cv2.COLOR_RGB2BGR): reverse each pixel's channel order. -/
def cvtColor_RGB2BGR (img : ColorImage) : ColorImage :=
  img.map (List.map (fun p => (p.2.2, p.2.1, p.1)))

/-- Modelled from the spec: cv2.cvtColor(img, cv2.COLOR_BGR2GRAY), the spec's
"fixed luminance transform" — the standard luminance 0.299 R + 0.587 G +
0.114 B in exact integer arithmetic with rounding (the library's fixed-point
coefficients are not part of the repository). The pixel is (b, g, r). -/
def cvtColor_BGR2GRAY (img : ColorImage) : GrayImage :=
  img.map (List.map (fun p => (299 * p.2.2 + 587 * p.2.1 + 114 * p.1 + 500) / 1000))

/-- Modelled from the spec: cv2.medianBlur(gray, 3) — every output pixel is
the median of its 3 × 3 replicated-border neighbourhood. -/
def medianBlur3 (img : GrayImage) : GrayImage :=
  imap (fun i row => imap (fun j _ =>
    let vals := (List.range 3).flatMap (fun di =>
      (List.range 3).map (fun dj => pxAt img (i + di - 1) (j + dj - 1)))
    (sortNat vals).getD 4 0) row) img

/-- The Gaussian weight of a 31-tap row, modelled by the binomial coefficients
choose 30 d: a separable discrete Gaussian of total row weight 2 ^ 30. -/
def gaussWeight (d : Nat) : Nat := Nat.choose 30 d

/-- Modelled from the spec: cv2.adaptiveThreshold(gray, 255,
ADAPTIVE_THRESH_GAUSSIAN_C, THRESH_BINARY, 31, 2) — for every pixel, the
Gaussian-weighted mean of its 31 × 31 replicated-border neighbourhood minus
the offset 2 is the local threshold; the output is 255 where the pixel
exceeds the threshold and 0 elsewhere. The library's floating-point Gaussian
weights are modelled by the binomial weights gaussWeight (total 2 ^ 60). -/
def adaptiveThreshold31_2 (img : GrayImage) : GrayImage :=
  imap (fun i row => imap (fun j v =>
    let wsum := ((List.range 31).map (fun di =>
      ((List.range 31).map (fun dj =>
        gaussWeight di * gaussWeight dj * pxAt img (i + di - 15) (j + dj - 15))).sum)).sum
    let threshold : Int := ((wsum / 2 ^ 60 : Nat) : Int) - 2
    if threshold < Int.ofNat v then (255 : Nat) else 0) row) img

/-- cv2.erode with the all-ones kh × kw structuring element np.ones((kh, kw)):
every output pixel is the minimum of its neighbourhood under the kernel,
anchored at the kernel centre (border pixels replicated). -/
def erodeOnes (kh kw : Nat) (img : GrayImage) : GrayImage :=
  imap (fun i row => imap (fun j _ =>
    (((List.range kh).flatMap (fun di =>
      (List.range kw).map (fun dj =>
        pxAt img (i + di - (kh - 1) / 2) (j + dj - (kw - 1) / 2)))).min?.getD 0)) row) img

/-- cv2.dilate with the all-ones kh × kw structuring element: the maximum of
the neighbourhood under the (symmetric) kernel. -/
def dilateOnes (kh kw : Nat) (img : GrayImage) : GrayImage :=
  imap (fun i row => imap (fun j _ =>
    (((List.range kh).flatMap (fun di =>
      (List.range kw).map (fun dj =>
        pxAt img (i + di - (kh - 1) / 2) (j + dj - (kw - 1) / 2)))).max?.getD 0)) row) img

/-- cv2.morphologyEx(thresh, cv2.MORPH_OPEN, kernel): erosion, then dilation
with the same structuring element. -/
def morphologyEx_open (kh kw : Nat) (img : GrayImage) : GrayImage :=
  dilateOnes kh kw (erodeOnes kh kw img)

/-- The source's preprocess_image: np.array, RGB → BGR, BGR → grayscale,
median blur (kernel 3), adaptive threshold (block 31, offset 2), then the
morphological opening with the np.ones((1, 1)) kernel, modelled by its
dimensions 1 × 1. -/
def preprocess_image (image : ColorImage) : GrayImage :=
  let img := cvtColor_RGB2BGR image
  let gray := cvtColor_BGR2GRAY img
  let gray2 := medianBlur3 gray
  let thresh := adaptiveThreshold31_2 gray2
  morphologyEx_open 1 1 thresh

/-- The pipeline as the claim describes it with the final 1 × 1 morphological
opening step removed: the adaptive-threshold result itself. -/
def preprocess_image_no_opening (image : ColorImage) : GrayImage :=
  adaptiveThreshold31_2 (medianBlur3 (cvtColor_BGR2GRAY (cvtColor_RGB2BGR image)))

/-!
The POST /extract-receipt handler of src/app.py, extract_receipt. The upload
framework, the PIL image decoding and the Tesseract OCR engine are external
collaborators, taken as parameters; what the handler does with them is
translated from the source.
-/

/-- The exceptions the handler's try block can raise: fastapi's HTTPException
(an Exception subclass) with its status code and detail, or any other
processing failure, carried as its message string. -/
inductive Exc where
  | http (status_code : Nat) (detail : String)
  | failure (msg : String)
  deriving DecidableEq

/-- str(e): starlette's HTTPException prints as "status_code: detail"; any
other exception prints as its message. -/
def excStr : Exc → String
  | .http s d => toString s ++ ": " ++ d
  | .failure m => m

/-- The success payload of POST /extract-receipt. -/
structure ReceiptResponse where
  filename : String
  extracted_text : String
  structured_data : ReceiptRecord
  deriving DecidableEq

/-- The try block of extract_receipt: reject a content type that does not
start with "image/" with HTTPException 400, otherwise read the upload, decode
it to an RGB bitmap, preprocess, run OCR and parse; any failure of the
external steps is an exception. -/
def extract_receipt_try (Bytes : Type) (content_type filename : String)
    (readUpload : Except String Bytes)
    (decodeRGB : Bytes → Except String ColorImage)
    (ocr : GrayImage → Except String String) : Except Exc ReceiptResponse :=
  if !(List.isPrefixOf "image/".data content_type.data) then
    .error (.http 400 "Please upload a valid image file (jpg, png, etc.)")
  else
    match readUpload with
    | .error m => .error (.failure m)
    | .ok bytes =>
      match decodeRGB bytes with
      | .error m => .error (.failure m)
      | .ok image =>
        let processed := preprocess_image image
        match ocr processed with
        | .error m => .error (.failure m)
        | .ok text =>
          .ok { filename := filename
                extracted_text := (pyStrip text.data).asString
                structured_data := parse_receipt_text text }

/-- The whole extract_receipt handler: its except Exception clause catches
every exception of the try block — including the 400 HTTPException raised for
a non-image content type, HTTPException being an Exception subclass — and
re-raises HTTPException(500, "OCR processing failed: " + str(e)). -/
def extract_receipt (Bytes : Type) (content_type filename : String)
    (readUpload : Except String Bytes)
    (decodeRGB : Bytes → Except String ColorImage)
    (ocr : GrayImage → Except String String) : Except Exc ReceiptResponse :=
  match extract_receipt_try Bytes content_type filename readUpload decodeRGB ocr with
  | .ok r => .ok r
  | .error e => .error (.http 500 ("OCR processing failed: " ++ excStr e))

end OcrApi

namespace OcrApi

/-!
Helper lemmas: correctness of the leftmost search, destructors for the Boolean
substring tests, and unfolding lemmas for the three fields of
parse_receipt_text.
-/

/-- If the pattern matches nowhere before position i and matches at i, the
leftmost search returns that match. -/
theorem searchSuffixes_eq_of_first (m : List Char → Option (List Char)) :
    ∀ (l : List Char) (i : Nat) (s : List Char),
      (∀ j, j < i → m (l.drop j) = none) → m (l.drop i) = some s →
      searchSuffixes m l = some s := by
  intro l
  induction l with
  | nil =>
    intro i s _ h2
    cases i with
    | zero => simpa [searchSuffixes] using h2
    | succ n => simpa [searchSuffixes] using h2
  | cons c rest ih =>
    intro i s h1 h2
    cases i with
    | zero =>
      rw [List.drop_zero] at h2
      simp [searchSuffixes, h2]
    | succ n =>
      have h0 : m (c :: rest) = none := by simpa using h1 0 (Nat.succ_pos n)
      have hrec := ih n s (fun j hj => by simpa using h1 (j + 1) (Nat.succ_lt_succ hj))
        (by simpa using h2)
      simp [searchSuffixes, h0, hrec]

/-- If the pattern matches at some position, the leftmost search succeeds. -/
theorem searchSuffixes_isSome (m : List Char → Option (List Char)) :
    ∀ (l : List Char) (i : Nat), (m (l.drop i)).isSome → (searchSuffixes m l).isSome := by
  intro l
  induction l with
  | nil =>
    intro i h
    cases i with
    | zero => simpa [searchSuffixes] using h
    | succ n => simpa [searchSuffixes] using h
  | cons c rest ih =>
    intro i h
    cases i with
    | zero =>
      rw [List.drop_zero] at h
      cases hm : m (c :: rest) with
      | some r => simp [searchSuffixes, hm]
      | none => rw [hm] at h; simp at h
    | succ n =>
      have hrec := ih n (by simpa using h)
      cases hm : m (c :: rest) with
      | some r => simp [searchSuffixes, hm]
      | none => simpa [searchSuffixes, hm] using hrec

/-- A successful Boolean prefix test exposes the tail. -/
theorem isPrefixOf_exists {p l : List Char} (h : List.isPrefixOf p l = true) :
    ∃ rest, l = p ++ rest := by
  simp at h
  rcases h with ⟨rest, hrest⟩
  exact ⟨rest, hrest.symm⟩

/-- The source's merchant loop is the first keyword line, with the default
when no line has a keyword. -/
theorem merchantLoop_eq_find (dflt : List Char) (ls : List (List Char)) :
    merchantLoop dflt ls = (ls.find? containsKeyword).getD dflt := by
  induction ls with
  | nil => rfl
  | cons l rest ih =>
    cases h : containsKeyword l with
    | true => simp [merchantLoop, h, List.find?_cons, ih]
    | false => simp [merchantLoop, h, List.find?_cons, ih]

/-- The amount field is the currency search's result, with the fallback search
as the alternative. -/
theorem parse_amount_eq (text : String) :
    (parse_receipt_text text).amount =
      ((searchSuffixes matchCurrencyAt text.data).orElse
        (fun _ => searchWithPrev matchFallbackAt none text.data)).map List.asString := by
  simp only [parse_receipt_text]
  cases searchSuffixes matchCurrencyAt text.data <;> rfl

/-- The date field is the first date search's result, with the year-first
search as the alternative. -/
theorem parse_date_eq (text : String) :
    (parse_receipt_text text).date =
      ((searchSuffixes matchDate1At text.data).orElse
        (fun _ => searchSuffixes matchDate2At text.data)).map List.asString := by
  simp only [parse_receipt_text]
  cases searchSuffixes matchDate1At text.data <;> rfl

/-- The merchant field as the loop over the non-empty stripped lines. -/
theorem parse_merchant_eq (text : String) :
    (parse_receipt_text text).merchant =
      (match linesOf text.data with
       | [] => none
       | l0 :: _ => some (merchantLoop l0 (linesOf text.data))).map List.asString := by
  simp only [parse_receipt_text]

/-- At any occurrence of "$12.34" the currency matcher returns exactly
"$12.34", whatever follows: the greedy \d+ stops at the dot and the decimal
group takes at most two digits. -/
theorem matchCurrencyAt_dollar_12_34 (rest : List Char) :
    matchCurrencyAt ("$12.34".data ++ rest) = some "$12.34".data := rfl

/-- At any occurrence of "12/05/2024" the first date matcher returns exactly
"12/05/2024", whatever follows: the pattern has fixed length. -/
theorem matchDate1At_12_05_2024 (rest : List Char) :
    matchDate1At ("12/05/2024".data ++ rest) = some "12/05/2024".data := rfl

/-- At any occurrence of "2024-05-12" the year-first date matcher returns
exactly "2024-05-12", whatever follows. -/
theorem matchDate2At_2024_05_12 (rest : List Char) :
    matchDate2At ("2024-05-12".data ++ rest) = some "2024-05-12".data := rfl

end OcrApi

namespace OcrApi

/-- An indexed map that leaves every element unchanged is the identity. -/
theorem imapFrom_eq_self {α : Type} (f : Nat → α → α) :
    ∀ (l : List α) (base : Nat),
      (∀ i (hi : i < l.length), f (base + i) (l.get ⟨i, hi⟩) = l.get ⟨i, hi⟩) →
      imapFrom f base l = l := by
  intro l
  induction l with
  | nil => intro base _; rfl
  | cons a as ih =>
    intro base h
    have h0 : f base a = a := by simpa using h 0 (by simp)
    have hrec : imapFrom f (base + 1) as = as := by
      apply ih
      intro i hi
      have h2 := h (i + 1) (Nat.succ_lt_succ hi)
      have e : base + (i + 1) = base + 1 + i := by omega
      rw [e] at h2
      simpa using h2
    simp [imapFrom, h0, hrec]

/-- List.getD inside the list is List.get. -/
theorem getD_of_lt {α : Type} (d : α) : ∀ (l : List α) (n : Nat) (h : n < l.length),
    l.getD n d = l.get ⟨n, h⟩ := by
  intro l
  induction l with
  | nil => intro n h; simp at h
  | cons a as ih =>
    intro n h
    cases n with
    | zero => rfl
    | succ m => exact ih m (Nat.lt_of_succ_lt_succ h)

/-- Inside the image, pxAt is plain indexing: the clamps are inactive. -/
theorem pxAt_of_lt (img : GrayImage) (i j : Nat) (hi : i < img.length)
    (hj : j < (img.get ⟨i, hi⟩).length) :
    pxAt img i j = (img.get ⟨i, hi⟩).get ⟨j, hj⟩ := by
  have h1 : min i (img.length - 1) = i := Nat.min_eq_left (Nat.le_pred_of_lt hi)
  have h2 : img.getD i [] = img.get ⟨i, hi⟩ := getD_of_lt [] img i hi
  have h3 : min j ((img.get ⟨i, hi⟩).length - 1) = j :=
    Nat.min_eq_left (Nat.le_pred_of_lt hj)
  simp only [pxAt]
  rw [h1, h2, h3]
  exact getD_of_lt 0 (img.get ⟨i, hi⟩) j hj

/-- Erosion with the 1 × 1 all-ones kernel changes nothing: the neighbourhood
under the kernel is the pixel itself. -/
theorem erodeOnes_one_one (img : GrayImage) : erodeOnes 1 1 img = img := by
  unfold erodeOnes imap
  apply imapFrom_eq_self
  intro i hi
  simp only [Nat.zero_add]
  apply imapFrom_eq_self
  intro j hj
  simp only [Nat.zero_add]
  simp only [List.range_succ, List.range_zero, List.nil_append, List.flatMap_cons, List.flatMap_nil, List.map_cons,
    List.map_nil, List.append_nil, Nat.add_zero, Nat.sub_zero, List.min?,
    Option.getD_some]
  exact pxAt_of_lt img i j hi hj

/-- Dilation with the 1 × 1 all-ones kernel changes nothing. -/
theorem dilateOnes_one_one (img : GrayImage) : dilateOnes 1 1 img = img := by
  unfold dilateOnes imap
  apply imapFrom_eq_self
  intro i hi
  simp only [Nat.zero_add]
  apply imapFrom_eq_self
  intro j hj
  simp only [Nat.zero_add]
  simp only [List.range_succ, List.range_zero, List.nil_append, List.flatMap_cons, List.flatMap_nil, List.map_cons,
    List.map_nil, List.append_nil, Nat.add_zero, Nat.sub_zero, List.max?,
    Option.getD_some]
  exact pxAt_of_lt img i j hi hj

/-- Opening with the 1 × 1 all-ones kernel is the identity. -/
theorem morphologyEx_open_one_one (img : GrayImage) : morphologyEx_open 1 1 img = img := by
  unfold morphologyEx_open
  rw [erodeOnes_one_one, dilateOnes_one_one]

end OcrApi

namespace OcrApi

/-- C1 (code bug): for an upload whose declared content type does not begin
with "image/", the handler raises HTTPException(400, ...) inside its try
block, but the except Exception clause catches it — HTTPException is an
Exception subclass — and re-raises HTTPException(500, "OCR processing
failed: " + str(e)): the response is a 500 server error, not the client error
the spec states. The result does not depend on the upload reader, the image
decoder or the OCR engine (all universally quantified here), so the rejection
does happen before any decode, preprocessing, recognition or extraction. -/
theorem extract_receipt_text_plain_rejected_as_500
    (Bytes : Type) (filename : String)
    (readUpload : Except String Bytes)
    (decodeRGB : Bytes → Except String ColorImage)
    (ocr : GrayImage → Except String String) :
    extract_receipt Bytes "text/plain" filename readUpload decodeRGB ocr =
      .error (.http 500
        "OCR processing failed: 400: Please upload a valid image file (jpg, png, etc.)") := rfl

/-- C2: amount extraction prefers the currency-prefixed pattern. Whenever the
currency pattern matches at any position (so in particular in any text that
also contains a bare decimal), the returned amount is the currency search's
match; only when the currency search fails is the bare-decimal fallback
consulted, and when both fail the amount key is absent. -/
theorem amount_currency_precedence (text : String) :
    (∀ i : Nat, (matchCurrencyAt (text.data.drop i)).isSome →
      (parse_receipt_text text).amount =
        (searchSuffixes matchCurrencyAt text.data).map List.asString ∧
      (searchSuffixes matchCurrencyAt text.data).isSome) ∧
    (searchSuffixes matchCurrencyAt text.data = none →
      (parse_receipt_text text).amount =
        (searchWithPrev matchFallbackAt none text.data).map List.asString) ∧
    (searchSuffixes matchCurrencyAt text.data = none →
      searchWithPrev matchFallbackAt none text.data = none →
      (parse_receipt_text text).amount = none) := by
  refine ⟨?_, ?_, ?_⟩
  · intro i h
    have hs := searchSuffixes_isSome matchCurrencyAt text.data i h
    refine ⟨?_, hs⟩
    rcases Option.isSome_iff_exists.mp hs with ⟨s, hsome⟩
    rw [parse_amount_eq, hsome]
    rfl
  · intro hnone
    rw [parse_amount_eq, hnone]
    rfl
  · intro hnone hfb
    rw [parse_amount_eq, hnone, hfb]
    rfl

/-- Witness for C2: "Pay $5 or 3.45" holds a currency amount at position 4 and
a bare decimal, and the currency match "$5" is returned. -/
theorem amount_currency_precedence_witness :
    (parse_receipt_text "Pay $5 or 3.45").amount = some "$5" := by
  have h := (amount_currency_precedence "Pay $5 or 3.45").1 4 (by decide)
  exact h.1.trans (by decide)

/-- C3 counterexample: "Total $9 $12.34" contains the substring "$12.34", yet
amount extraction returns the leftmost currency match "$9", not "$12.34". -/
theorem amount_dollar_12_34_counterexample :
    List.isPrefixOf "$12.34".data ("Total $9 $12.34".data.drop 9) = true ∧
    (parse_receipt_text "Total $9 $12.34").amount = some "$9" ∧
    (parse_receipt_text "Total $9 $12.34").amount ≠ some "$12.34" := by decide

/-- C3 (amended): if "$12.34" occurs at position i of the text and the
currency pattern matches at no earlier position, amount extraction returns
exactly "$12.34" — whatever follows the occurrence, the match there is
exactly "$12.34". -/
theorem amount_dollar_12_34_of_leftmost (text : String) (i : Nat)
    (h1 : List.isPrefixOf "$12.34".data (text.data.drop i) = true)
    (h2 : ∀ j, j < i → matchCurrencyAt (text.data.drop j) = none) :
    (parse_receipt_text text).amount = some "$12.34" := by
  obtain ⟨rest, hrest⟩ := isPrefixOf_exists h1
  have hmatch : matchCurrencyAt (text.data.drop i) = some "$12.34".data := by
    rw [hrest]; exact matchCurrencyAt_dollar_12_34 rest
  have hsearch := searchSuffixes_eq_of_first matchCurrencyAt text.data i _ h2 hmatch
  rw [parse_amount_eq, hsearch]
  rfl

/-- Witness for C3: in "buy $12.34 now" the occurrence at position 4 is the
leftmost currency match, and "$12.34" is returned. -/
theorem amount_dollar_12_34_of_leftmost_witness :
    (parse_receipt_text "buy $12.34 now").amount = some "$12.34" :=
  amount_dollar_12_34_of_leftmost "buy $12.34 now" 4 (by decide) (by decide)

/-- C4 counterexample: "01-01-1999 12/05/2024" contains "12/05/2024", yet date
extraction returns the leftmost first-pattern match "01-01-1999". -/
theorem date_12_05_2024_counterexample :
    List.isPrefixOf "12/05/2024".data ("01-01-1999 12/05/2024".data.drop 11) = true ∧
    (parse_receipt_text "01-01-1999 12/05/2024").date = some "01-01-1999" ∧
    (parse_receipt_text "01-01-1999 12/05/2024").date ≠ some "12/05/2024" := by decide

/-- C4 (amended): date extraction returns the first match of the
two-two-four pattern verbatim; only when that pattern matches nowhere is the
year-first pattern searched, and when both fail the date key is absent. In
particular an occurrence of "12/05/2024" with no earlier first-pattern match
yields "12/05/2024", and — when the first pattern is absent — an occurrence
of "2024-05-12" with no earlier year-first match yields "2024-05-12". -/
theorem date_pattern_cascade (text : String) :
    (∀ s, searchSuffixes matchDate1At text.data = some s →
      (parse_receipt_text text).date = some s.asString) ∧
    (searchSuffixes matchDate1At text.data = none →
      (parse_receipt_text text).date =
        (searchSuffixes matchDate2At text.data).map List.asString) ∧
    (∀ i, List.isPrefixOf "12/05/2024".data (text.data.drop i) = true →
      (∀ j, j < i → matchDate1At (text.data.drop j) = none) →
      (parse_receipt_text text).date = some "12/05/2024") ∧
    (searchSuffixes matchDate1At text.data = none →
      ∀ i, List.isPrefixOf "2024-05-12".data (text.data.drop i) = true →
        (∀ j, j < i → matchDate2At (text.data.drop j) = none) →
        (parse_receipt_text text).date = some "2024-05-12") := by
  refine ⟨?_, ?_, ?_, ?_⟩
  · intro s hs
    rw [parse_date_eq, hs]
    rfl
  · intro hnone
    rw [parse_date_eq, hnone]
    rfl
  · intro i hpre hnone
    obtain ⟨rest, hrest⟩ := isPrefixOf_exists hpre
    have hmatch : matchDate1At (text.data.drop i) = some "12/05/2024".data := by
      rw [hrest]; exact matchDate1At_12_05_2024 rest
    have hsearch := searchSuffixes_eq_of_first matchDate1At text.data i _ hnone hmatch
    rw [parse_date_eq, hsearch]
    rfl
  · intro h1none i hpre hnone
    obtain ⟨rest, hrest⟩ := isPrefixOf_exists hpre
    have hmatch : matchDate2At (text.data.drop i) = some "2024-05-12".data := by
      rw [hrest]; exact matchDate2At_2024_05_12 rest
    have hsearch := searchSuffixes_eq_of_first matchDate2At text.data i _ hnone hmatch
    rw [parse_date_eq, h1none, hsearch]
    rfl

/-- Witness for C4: "on 12/05/2024" yields "12/05/2024" through the amended
claim's first-pattern case at position 3. -/
theorem date_pattern_cascade_witness :
    (parse_receipt_text "on 12/05/2024").date = some "12/05/2024" :=
  (date_pattern_cascade "on 12/05/2024").2.2.1 3 (by decide) (by decide)

/-- C5: the merchant is the first non-empty stripped line that contains a
keyword, or the first non-empty line when none does, and the key is absent
when there is no non-empty line; the example lines yield "STORE #4". -/
theorem merchant_keyword_override (text : String) :
    (parse_receipt_text text).merchant =
      ((linesOf text.data).head?).map
        (fun l0 => (((linesOf text.data).find? containsKeyword).getD l0).asString) ∧
    (parse_receipt_text "Joe's Deli\nThank you\nSTORE #4").merchant = some "STORE #4" := by
  constructor
  · rw [parse_merchant_eq]
    cases linesOf text.data with
    | nil => rfl
    | cons l0 ls => simp [merchantLoop_eq_find]
  · decide

/-- C6: the empty string parses to the record with no amount, date or
merchant key. -/
theorem parse_empty_no_keys :
    parse_receipt_text "" = { amount := none, date := none, merchant := none } := by decide

/-- C7: preprocessing is deterministic — the pipeline is a pure function of
the input bitmap, so equal inputs give identical outputs. -/
theorem preprocess_image_deterministic (img1 img2 : ColorImage) (h : img1 = img2) :
    preprocess_image img1 = preprocess_image img2 := by rw [h]

/-- Witness for C7 at a concrete one-pixel image. -/
theorem preprocess_image_deterministic_witness :
    preprocess_image [[(5, 7, 9)]] = preprocess_image [[(5, 7, 9)]] :=
  preprocess_image_deterministic [[(5, 7, 9)]] [[(5, 7, 9)]] rfl

/-- C8: the final morphological opening with the 1 × 1 structuring element is
a no-op — the pipeline equals the pipeline with that step removed, i.e. the
adaptive-threshold result. -/
theorem opening_step_noop (image : ColorImage) :
    preprocess_image image = preprocess_image_no_opening image := by
  simp only [preprocess_image, preprocess_image_no_opening, morphologyEx_open_one_one]

/-- C9: the date patterns carry no boundary anchors and each separator is
matched independently: the digit run "123-45-67890" yields the embedded match
"23-45-6789", and the mixed-separator "12/05-2024" is captured as a date. -/
theorem date_unanchored_matches :
    (parse_receipt_text "123-45-67890").date = some "23-45-6789" ∧
    (parse_receipt_text "12/05-2024").date = some "12/05-2024" := by decide

/-- C10: the currency pattern accepts at most one whitespace character
between the symbol and the digits and includes it in the returned match;
after two whitespace characters the currency branch fails at that position,
so "$ 12.34" yields "$ 12.34" while "$  12.34" falls through to the
bare-decimal fallback and yields "12.34". -/
theorem currency_one_whitespace :
    (∀ rest : List Char, matchCurrencyAt ('$' :: ' ' :: rest) =
      (matchNumber rest).map (fun n => '$' :: ' ' :: n)) ∧
    (∀ rest : List Char, matchCurrencyAt ('$' :: ' ' :: ' ' :: rest) = none) ∧
    (parse_receipt_text "$ 12.34").amount = some "$ 12.34" ∧
    (parse_receipt_text "$  12.34").amount = some "12.34" := by
  refine ⟨?_, ?_, by decide, by decide⟩
  · intro rest
    have hstep : matchCurrencyAt ('$' :: ' ' :: rest) =
        (match matchNumber rest with
         | some n => some ('$' :: ' ' :: n)
         | none => (matchNumber (' ' :: rest)).map (fun n => '$' :: n)) := rfl
    have hnum : matchNumber (' ' :: rest) = none := rfl
    cases h : matchNumber rest with
    | some n => rw [hstep, h]; rfl
    | none => rw [hstep, h, hnum]; rfl
  · intro rest
    have hstep : matchCurrencyAt ('$' :: ' ' :: ' ' :: rest) =
        (match matchNumber (' ' :: rest) with
         | some n => some ('$' :: ' ' :: n)
         | none => (matchNumber (' ' :: ' ' :: rest)).map (fun n => '$' :: n)) := rfl
    have h1 : matchNumber (' ' :: rest) = none := rfl
    have h2 : matchNumber (' ' :: ' ' :: rest) = none := rfl
    rw [hstep, h1, h2]
    rfl

end OcrApi
